import Mathlib

/-!
# pouchd bootstrap: `runDaemon`, the signal goroutine and `main`

A shallow embedding of `main.go`.  The program is effectful, so every call that
leaves the file (filesystem, process supervisor, daemon, logger, signals) is
recorded as an `Event` in a trace, and the value such a call returns is read
from an `Env`, which has one field per call site.  `runDaemon` executes every
call site at most once, so quantifying over `Env` covers every behaviour of the
collaborators.
-/

namespace Pouchd

/-! ## Data model -/

/-- A Go `error` value: its `Error()` text and what `os.IsNotExist` says of it. -/
structure Error where
  msg : String
  notExist : Bool
  deriving DecidableEq, Repr

/-- The error built by `fmt.Errorf`: only a text, never a not-exist error. -/
def Errorf (msg : String) : Error := ⟨msg, false⟩

/-- The fields of `config.Config` that `main.go` reads or writes (`TLS` is only
handed to `utils.SetupTLSFlag` and is left out). -/
structure Config where
  HomeDir : String
  Listen : List String
  Debug : Bool
  ContainerdAddr : String
  ContainerdPath : String
  ContainerdConfig : String
  deriving DecidableEq, Repr

/-- One `exec.Process` literal: executable path and argument list. -/
structure Process where
  Path : String
  Args : List String
  deriving DecidableEq, Repr

/-- The type `exec.Processes`. -/
abbrev Processes := List Process

/-- The value behind a non-nil `*daemon.Daemon`. -/
structure Daemon where
  id : Nat
  deriving DecidableEq, Repr

/-- The four signals passed to `signal.Notify`. -/
inductive Signal
  | SIGINT
  | SIGQUIT
  | SIGTERM
  | SIGHUP
  deriving DecidableEq, Repr

/-- Text of a signal as printed by `%s` (Go's `syscall.Signal.String`). -/
def Signal.String : Signal → String
  | .SIGINT => "interrupt"
  | .SIGQUIT => "quit"
  | .SIGTERM => "terminated"
  | .SIGHUP => "hangup"

/-- An element of `sigHandles`: the two method values the program registers. -/
inductive Handle
  | stopAll (ps : Processes)
  | shutdown (d : Daemon)
  deriving DecidableEq, Repr

/-- Logrus levels used in the file. -/
inductive Level
  | info
  | warn
  | error
  deriving DecidableEq, Repr

/-- Observable actions, in program order. -/
inductive Event
  | setLevelDebug
  | log (lvl : Level) (msg : String)
  | setFormatter
  | stat (path : String)
  | mkdirAll (path : String) (perm : Nat)
  | removeAll (path : String)
  | runAll (ps : Processes)
  | stopAll (ps : Processes)
  | register (h : Handle)
  | notify (sigs : List Signal)
  | go
  | newDaemon (cfg : Config)
  | shutdown (d : Daemon)
  | run (d : Daemon)
  | runReturned (d : Daemon)
  | exit (code : Nat)
  deriving DecidableEq, Repr

/-- Calling a registered handler `handle()`. -/
def Handle.event : Handle → Event
  | .stopAll ps => .stopAll ps
  | .shutdown d => .shutdown d

/-- What the collaborators answer.  `isAbs` and `join` are `path.IsAbs` and
`path.Join`; every other field is the result of one call site of `runDaemon`
(`none` is a nil error, and for `newDaemon` a nil daemon). -/
structure Env where
  isAbs : String → Bool
  join : String → String → String
  statHome : Option Error
  mkdirAll : Option Error
  statAddr : Option Error
  removeAll : Option Error
  runAll : Option Error
  newDaemon : Option Daemon
  run : Option Error
  stopAll : Option Error

/-- Outcome of `runDaemon`: the returned error (`none` is nil), the global
`sigHandles` at return, and the actions performed. -/
structure Result where
  ret : Option Error
  sigHandles : List Handle
  trace : List Event
  deriving DecidableEq, Repr

/-! ## The functions of `main.go` -/

/-- Modelled from the spec: `utils.If` of `pkg/utils`, which is not among the
sources; the spec calls it the "boolean-to-string helper (selecting a log-level
string from a flag)", to be written as a plain conditional expression. -/
def If (cond : Bool) (a b : String) : String := if cond then a else b

/-- The function `initLog`. -/
def initLog (cfg : Config) : List Event :=
  (if cfg.Debug then [Event.setLevelDebug, Event.log Level.info "start daemon at debug level"]
   else []) ++ [Event.setFormatter]

/-- The `exec.Processes` literal of `runDaemon`. -/
def processes (env : Env) (cfg : Config) : Processes :=
  [{ Path := cfg.ContainerdPath
     Args := ["-c", cfg.ContainerdConfig,
              "-a", cfg.ContainerdAddr,
              "--root", env.join cfg.HomeDir "containerd/root",
              "--state", env.join cfg.HomeDir "containerd/state",
              "-l", If cfg.Debug "debug" "info"] }]

/-- The signals given to `signal.Notify`, in source order. -/
def notified : List Signal := [.SIGINT, .SIGQUIT, .SIGTERM, .SIGHUP]

/-- Statements of `runDaemon` that follow `defer processes.StopAll()`. -/
def runDaemonBody (env : Env) (cfg : Config) (ps : Processes)
    (sigHandles : List Handle) : Result :=
  match env.runAll with
  | some err => ⟨some err, sigHandles, [.runAll ps]⟩
  | none =>
    let sigHandles := sigHandles ++ [Handle.stopAll ps]
    let t := [.runAll ps, .register (.stopAll ps), .notify notified, .go, .newDaemon cfg]
    match env.newDaemon with
    | none => ⟨some (Errorf "failed to new daemon"), sigHandles, t⟩
    | some d =>
      let sigHandles := sigHandles ++ [Handle.shutdown d]
      ⟨env.run, sigHandles, t ++ [.register (.shutdown d), .run d, .runReturned d]⟩

/-- Running the deferred `processes.StopAll()` at the return; its result is
dropped. -/
def deferStopAll (ps : Processes) (r : Result) : Result :=
  { r with trace := r.trace ++ [.stopAll ps] }

/-- Actions `t` already performed, followed by the run `r`. -/
def Result.after (t : List Event) (r : Result) : Result :=
  { r with trace := t ++ r.trace }

/-- The stale-address check of `runDaemon`. -/
def cleanAddr (env : Env) (cfg : Config) : List Event :=
  match env.statAddr with
  | none => [.stat cfg.ContainerdAddr, .removeAll cfg.ContainerdAddr]
  | some _ => [.stat cfg.ContainerdAddr]

/-- From the stale-address check to the return. -/
def startProcesses (env : Env) (cfg : Config) (sigHandles : List Handle) : Result :=
  let ps := processes env cfg
  (deferStopAll ps (runDaemonBody env cfg ps sigHandles)).after (cleanAddr env cfg)

/-- The function `runDaemon`, started with the given content of `sigHandles`. -/
def runDaemon (env : Env) (cfg : Config) (sigHandles : List Handle) : Result :=
  let dir := cfg.HomeDir
  if dir = "" ∨ env.isAbs dir = false then
    ⟨some (Errorf ("invalid pouchd's home dir: " ++ dir)), sigHandles, initLog cfg⟩
  else
    match env.statHome with
    | some err =>
      if err.notExist then
        match env.mkdirAll with
        | some err => ⟨some (Errorf ("failed to mkdir: " ++ err.msg)), sigHandles,
                        initLog cfg ++ [.stat dir, .mkdirAll dir 0o666]⟩
        | none => (startProcesses env cfg sigHandles).after
                    (initLog cfg ++ [.stat dir, .mkdirAll dir 0o666])
      else (startProcesses env cfg sigHandles).after (initLog cfg ++ [.stat dir])
    | none => (startProcesses env cfg sigHandles).after (initLog cfg ++ [.stat dir])

/-- The `for _, handle := range sigHandles` loop of the goroutine; `res i` is
what the call of iteration `i` returns. -/
def handleLoop (res : Nat → Option Error) (i : Nat) : List Handle → List Event
  | [] => []
  | h :: hs =>
    (h.event :: (match res i with
      | none => []
      | some err => [.log .error ("failed to handle signal: " ++ err.msg)]))
    ++ handleLoop res (i + 1) hs

/-- Body of the goroutine once `sig` has been received, with `hs` the content
of `sigHandles` at the `range`. -/
def onSignal (res : Nat → Option Error) (sig : Signal) (hs : List Handle) : List Event :=
  [.log .warn ("received signal: " ++ sig.String)] ++ handleLoop res 0 hs ++ [.exit 1]

/-- Exit status `main` gives the process from the error of `runDaemon`. -/
def exitStatus : Option Error → Nat
  | none => 0
  | some _ => 1

/-! ## Reading a trace -/

/-- Handlers invoked in a trace, in order. -/
def calls : List Event → List Handle
  | [] => []
  | .stopAll ps :: t => .stopAll ps :: calls t
  | .shutdown d :: t => .shutdown d :: calls t
  | _ :: t => calls t

/-- The home directory passes the check of `runDaemon`: not empty and absolute. -/
def validHome (env : Env) (cfg : Config) : Prop :=
  cfg.HomeDir ≠ "" ∧ env.isAbs cfg.HomeDir = true

instance (env : Env) (cfg : Config) : Decidable (validHome env cfg) := by
  unfold validHome; infer_instance

/-- The first `os.Stat` reports that the home directory does not exist. -/
def homeMissing (env : Env) : Bool :=
  match env.statHome with
  | some err => err.notExist
  | none => false

/-- The run gets past the home directory: the check passes and, where the
directory has to be created, `os.MkdirAll` succeeds. -/
def homeReady (env : Env) (cfg : Config) : Prop :=
  validHome env cfg ∧ (homeMissing env = true → env.mkdirAll = none)

instance (env : Env) (cfg : Config) : Decidable (homeReady env cfg) := by
  unfold homeReady; infer_instance

/-- Actions of a run that gets past the home directory, up to there. -/
def homeTrace (env : Env) (cfg : Config) : List Event :=
  initLog cfg ++ (if homeMissing env then [.stat cfg.HomeDir, .mkdirAll cfg.HomeDir 0o666]
                  else [.stat cfg.HomeDir])

/-- An action of the logger, the only kind `initLog` performs. -/
def Event.isLog : Event → Bool
  | .setLevelDebug => true
  | .log _ _ => true
  | .setFormatter => true
  | _ => false

/-- Number of `processes.StopAll` calls in a trace. -/
def countStopAll : List Event → Nat
  | [] => 0
  | .stopAll _ :: t => countStopAll t + 1
  | _ :: t => countStopAll t

/-! ## The two goroutines together

After `go func()` the main goroutine and the signal goroutine run side by side.
An execution of the process is a sequence of ticks, each of which lets one
goroutine perform its next action or lets the operating system deliver a signal.
The answers in `Env` and the outcomes `res` of the handler calls do not depend
on the interleaving, so the actions of the main goroutine are the trace of
`runDaemon` followed by the exit of `main`, performed one per tick. -/

/-- The goroutine that performs an action. -/
inductive Who
  | main
  | listener
  deriving DecidableEq, Repr

/-- One move of an execution. -/
inductive Tick
  | main
  | listener
  | signal (sig : Signal)
  deriving DecidableEq, Repr

/-- Where the goroutine of `go func()` stands. -/
inductive Lis
  | absent
  | waiting
  | received (sig : Signal)
  | ranging
  | running (todo : List Event)
  deriving DecidableEq, Repr

/-- How the process ended. -/
inductive Exit
  | status (code : Nat)
  | killed (sig : Signal)
  deriving DecidableEq, Repr

/-- State of the process: the actions the main goroutine has yet to perform, the
signal goroutine, the global `sigHandles`, whether `signal.Notify` is in effect,
the content of the channel `signals` (capacity 1), the actions so far and the
end of the process once it has ended. -/
structure Sys where
  main : List Event
  lis : Lis
  sigHandles : List Handle
  notify : Bool
  chan : Option Signal
  trace : List (Who × Event)
  exited : Option Exit
  deriving DecidableEq, Repr

/-- Actions of the main goroutine in `main`: `runDaemon`, then the end of the
process with the status `main` derives from its error. -/
def mainActions (env : Env) (cfg : Config) : List Event :=
  (runDaemon env cfg []).trace ++ [.exit (exitStatus (runDaemon env cfg []).ret)]

/-- The process at the start of `main`. -/
def Sys.init (env : Env) (cfg : Config) : Sys :=
  ⟨mainActions env cfg, .absent, [], false, none, [], none⟩

/-- Effect of an action on the shared state, and its record in the trace. -/
def Sys.perform (s : Sys) (w : Who) (e : Event) : Sys :=
  let s := { s with trace := s.trace ++ [(w, e)] }
  match e with
  | .register h => { s with sigHandles := s.sigHandles ++ [h] }
  | .notify _ => { s with notify := true }
  | .go => { s with lis := .waiting }
  | .exit c => { s with exited := some (.status c) }
  | _ => s

/-- What a signal does to the process while `signal.Notify` is not in effect:
the Go runtime answers SIGQUIT with a goroutine dump and exit status 2, and lets
SIGINT, SIGTERM and SIGHUP kill the process. -/
def defaultExit : Signal → Exit
  | .SIGQUIT => .status 2
  | sig => .killed sig

/-- One tick.  Nothing moves once the process has ended.  A signal that arrives
before `signal.Notify` ends the process (see `defaultExit`); afterwards it
is put in the channel if there is room and dropped otherwise.  The signal
goroutine receives, logs the warning, evaluates `range sigHandles`, and then
performs the actions of the loop and `os.Exit(1)`. -/
def step (res : Nat → Option Error) (s : Sys) (t : Tick) : Sys :=
  if s.exited.isSome then s else
  match t with
  | .main =>
    match s.main with
    | [] => s
    | e :: rest => Sys.perform { s with main := rest } .main e
  | .signal sig =>
    if s.notify then
      match s.chan with
      | none => { s with chan := some sig }
      | some _ => s
    else { s with exited := some (defaultExit sig) }
  | .listener =>
    match s.lis with
    | .absent => s
    | .waiting =>
      match s.chan with
      | some sig => { s with chan := none, lis := .received sig }
      | none => s
    | .received sig =>
      Sys.perform { s with lis := .ranging } .listener
        (.log .warn ("received signal: " ++ sig.String))
    | .ranging => { s with lis := .running (handleLoop res 0 s.sigHandles ++ [.exit 1]) }
    | .running [] => s
    | .running (e :: todo) => Sys.perform { s with lis := .running todo } .listener e

/-- The execution along a schedule. -/
def exec (res : Nat → Option Error) (s : Sys) (sched : List Tick) : Sys :=
  sched.foldl (step res) s

/-- Several actions of one goroutine in a row. -/
def Sys.performAll (s : Sys) (w : Who) (es : List Event) : Sys :=
  es.foldl (fun s e => Sys.perform s w e) s

/-- An action that has no effect on the shared state. -/
def Event.inert : Event → Bool
  | .register _ => false
  | .notify _ => false
  | .go => false
  | .exit _ => false
  | _ => true

/-- Handlers registered by the actions of a trace, in order. -/
def registered : List Event → List Handle
  | [] => []
  | .register h :: t => h :: registered t
  | _ :: t => registered t

/-- The actions of one goroutine in the trace of the process. -/
def actionsOf (w : Who) (t : List (Who × Event)) : List Event :=
  (t.filter (fun p => p.1 = w)).map Prod.snd

/-- Actions of `runDaemon` up to and including the call of `d.Run()`, in a run
that gets there with the daemon `d`. -/
def untilRun (env : Env) (cfg : Config) (d : Daemon) : List Event :=
  homeTrace env cfg ++ cleanAddr env cfg ++
    [.runAll (processes env cfg), .register (.stopAll (processes env cfg)), .notify notified,
     .go, .newDaemon cfg, .register (.shutdown d), .run d]

/-- The process when the main goroutine has called `d.Run()` and is blocked in
it. -/
def Sys.atRun (env : Env) (cfg : Config) (d : Daemon) : Sys where
  main := [.runReturned d, .stopAll (processes env cfg), .exit (exitStatus env.run)]
  lis := .waiting
  sigHandles := [.stopAll (processes env cfg), .shutdown d]
  notify := true
  chan := none
  trace := (untilRun env cfg d).map (fun e => (Who.main, e))
  exited := none

/-- A schedule for the sample run: the main goroutine is taken to `d.Run()`,
SIGTERM arrives, the signal goroutine performs the pass (receive, warning,
`range`, `StopAll`, `Shutdown`), `d.Run()` returns and the main goroutine runs
its deferred `StopAll`, and the signal goroutine reaches `os.Exit(1)`. -/
def schedBoth : List Tick :=
  List.replicate 10 .main ++ [.signal .SIGTERM] ++ List.replicate 5 .listener
    ++ List.replicate 2 .main ++ [.listener]

/-- The two kinds of handler. -/
inductive Kind
  | stopAll
  | shutdown
  deriving DecidableEq, Repr

/-- Kind of a handler. -/
def Handle.kind : Handle → Kind
  | .stopAll _ => .stopAll
  | .shutdown _ => .shutdown

/-- Number of handlers of kind `k` in a list. -/
def nk (k : Kind) (hs : List Handle) : Nat :=
  hs.countP (fun h => h.kind = k)

/-- Number of calls of kind `k` that goroutine `w` has made. -/
def doneBy (w : Who) (k : Kind) (s : Sys) : Nat :=
  nk k (calls (actionsOf w s.trace))

/-- Number of calls of kind `k` the signal goroutine may still make: those of
the pass once it has evaluated `range sigHandles`, and before that the handlers
registered or still to be registered. -/
def pending (k : Kind) (s : Sys) : Nat :=
  match s.lis with
  | .running todo => nk k (calls todo)
  | _ => nk k s.sigHandles + nk k (registered s.main)

/-- The statement `go` is performed at most once. -/
def spawnOnce (s : Sys) : Prop :=
  s.main.count .go + (if s.lis = .absent then 0 else 1) ≤ 1

/-- The actions of a pass do not contain `go`. -/
def goFree (s : Sys) : Prop :=
  ∀ todo, s.lis = .running todo → Event.go ∉ todo

/-- The main goroutine has no registration and no `go` left to perform. -/
def mainQuiet (s : Sys) : Prop :=
  ∀ e ∈ s.main, registered [e] = [] ∧ e ≠ .go

/-- What the signal goroutine has done so far and what it has left to do make
up the pass over the registry `hs`. -/
def passShape (res : Nat → Option Error) (hs : List Handle) (s : Sys) : Prop :=
  match s.lis with
  | .absent => False
  | .waiting => actionsOf .listener s.trace = []
  | .received _ => actionsOf .listener s.trace = []
  | .ranging =>
    ∃ sig : Signal,
      actionsOf .listener s.trace = [.log .warn ("received signal: " ++ sig.String)]
  | .running todo => ∃ sig : Signal, actionsOf .listener s.trace ++ todo = onSignal res sig hs

/-- An exit in the trace is the end of the process. -/
def exitRecorded (s : Sys) : Prop :=
  ∀ w c, (w, Event.exit c) ∈ s.trace → s.exited = some (.status c)

/-- What holds of the process from the call of `d.Run()` on, with `hs` the
registry at that call. -/
def runInv (res : Nat → Option Error) (hs : List Handle) (s : Sys) : Prop :=
  s.sigHandles = hs ∧ mainQuiet s ∧ passShape res hs s ∧ exitRecorded s

/-- The signal goroutine is past its receive, so it no longer reads the
channel. -/
def passing (s : Sys) : Prop :=
  s.lis ≠ .waiting ∧ goFree s ∧ s.notify = true

/-- A schedule from the call of `d.Run()`: a signal arrives, the signal
goroutine receives it, logs and evaluates the `range`; `d.Run()` returns on its
own and the main goroutine runs the deferred `StopAll` and leaves `main`. -/
def schedMainFirst : List Tick :=
  [.signal .SIGTERM] ++ List.replicate 3 .listener ++ List.replicate 3 .main

/-- A schedule from the call of `d.Run()`: a signal arrives, the signal
goroutine performs the pass up to and including `Shutdown`; `d.Run()` returns
and the main goroutine runs the deferred `StopAll` and leaves `main` before the
signal goroutine reaches `os.Exit(1)`. -/
def schedExitZero : List Tick :=
  [.signal .SIGTERM] ++ List.replicate 5 .listener ++ List.replicate 3 .main
    ++ List.replicate 3 .listener

/-- Sample environment: everything succeeds, the home directory exists and no
socket is left at the containerd address.  `isAbs` tests the leading slash and
`join` puts a slash between its arguments, which is what `path.IsAbs` and
`path.Join` give on the clean paths of the sample configurations. -/
def envOk : Env where
  isAbs := fun s => s.front == '/'
  join := fun a b => a ++ "/" ++ b
  statHome := none
  mkdirAll := none
  statAddr := some ⟨"stat /var/run/containerd.sock: no such file or directory", true⟩
  removeAll := none
  runAll := none
  newDaemon := some ⟨1⟩
  run := none
  stopAll := none

/-- Sample configuration: the flag defaults of `setupFlags`. -/
def cfgDefault : Config where
  HomeDir := "/etc/pouchd"
  Listen := ["unix:///var/run/pouchd.sock"]
  Debug := false
  ContainerdAddr := "/var/run/containerd.sock"
  ContainerdPath := "/usr/local/bin/containerd"
  ContainerdConfig := "/etc/containerd/config.toml"

/-- Sample configuration with an empty home directory. -/
def cfgNoHome : Config := { cfgDefault with HomeDir := "" }

/-- Sample configuration with a relative home directory. -/
def cfgRelHome : Config := { cfgDefault with HomeDir := "pouchd" }

/-- Sample environment: the home directory is missing and is created, a stale
socket is found at the containerd address. -/
def envFresh : Env :=
  { envOk with
    statHome := some ⟨"stat /etc/pouchd: no such file or directory", true⟩
    statAddr := none }

/-- Sample environment: the home directory is missing and cannot be created. -/
def envMkdirFails : Env :=
  { envOk with
    statHome := some ⟨"stat /etc/pouchd: no such file or directory", true⟩
    mkdirAll := some ⟨"mkdir /etc/pouchd: permission denied", false⟩ }

/-- Sample environment: containerd cannot be launched. -/
def envRunAllFails : Env :=
  { envOk with runAll := some ⟨"exec: containerd: file not found", false⟩ }

/-- Sample environment: `daemon.NewDaemon` yields nil. -/
def envNoDaemon : Env := { envOk with newDaemon := none }

/-! ## Shared lemmas -/

theorem initLog_isLog (cfg : Config) : ∀ e ∈ initLog cfg, e.isLog = true := by
  unfold initLog
  cases cfg.Debug <;> simp [Event.isLog]

theorem runDaemon_of_homeReady (env : Env) (cfg : Config) (hs : List Handle)
    (h : homeReady env cfg) :
    runDaemon env cfg hs = (startProcesses env cfg hs).after (homeTrace env cfg) := by
  obtain ⟨⟨h1, h2⟩, h3⟩ := h
  unfold runDaemon homeTrace
  simp only [h1, h2, false_or, Bool.true_eq_false, if_false]
  unfold homeMissing at h3 ⊢
  cases hst : env.statHome with
  | none => simp
  | some err =>
    cases hne : err.notExist with
    | false => simp [hne]
    | true =>
      simp only [hst, hne, forall_const] at h3
      simp [hne, h3]

theorem runDaemon_trace_of_homeReady (env : Env) (cfg : Config) (hs : List Handle)
    (h : homeReady env cfg) :
    (runDaemon env cfg hs).trace =
      homeTrace env cfg ++ cleanAddr env cfg
        ++ (runDaemonBody env cfg (processes env cfg) hs).trace
        ++ [.stopAll (processes env cfg)] := by
  rw [runDaemon_of_homeReady env cfg hs h]
  simp [Result.after, startProcesses, deferStopAll]

/-- The registry at the return is the initial one followed by the handlers
registered by the actions of the run. -/
theorem runDaemon_sigHandles (env : Env) (cfg : Config) (hs : List Handle) :
    (runDaemon env cfg hs).sigHandles = hs ++ registered (runDaemon env cfg hs).trace := by
  unfold runDaemon startProcesses runDaemonBody cleanAddr initLog
  by_cases hv : cfg.HomeDir = "" ∨ env.isAbs cfg.HomeDir = false
  · simp only [hv, if_true]
    cases cfg.Debug <;> simp [registered]
  · simp only [hv, if_false]
    cases env.statHome with
    | none =>
      cases env.runAll <;> cases env.newDaemon <;> cases env.statAddr <;> cases cfg.Debug <;>
        simp [Result.after, deferStopAll, registered]
    | some err =>
      cases hne : err.notExist <;> cases env.mkdirAll <;> cases env.runAll <;>
        cases env.newDaemon <;> cases env.statAddr <;> cases cfg.Debug <;>
        simp [Result.after, deferStopAll, registered, hne]

theorem homeTrace_no_call (env : Env) (cfg : Config) : calls (homeTrace env cfg) = [] := by
  unfold homeTrace initLog
  cases cfg.Debug <;> cases homeMissing env <;> simp [calls]

theorem cleanAddr_no_call (env : Env) (cfg : Config) : calls (cleanAddr env cfg) = [] := by
  unfold cleanAddr
  cases env.statAddr <;> simp [calls]

theorem calls_append (s t : List Event) : calls (s ++ t) = calls s ++ calls t := by
  induction s with
  | nil => rfl
  | cons e s ih => cases e <;> simp [calls, ih]

theorem runDaemonBody_no_call (env : Env) (cfg : Config) (ps : Processes) (hs : List Handle) :
    calls (runDaemonBody env cfg ps hs).trace = [] := by
  unfold runDaemonBody
  cases env.runAll <;> cases env.newDaemon <;> simp [calls]

theorem runDaemon_of_not_homeReady (env : Env) (cfg : Config) (hs : List Handle)
    (h : ¬ homeReady env cfg) :
    (runDaemon env cfg hs).trace = initLog cfg
      ∨ (runDaemon env cfg hs).trace =
          initLog cfg ++ [.stat cfg.HomeDir, .mkdirAll cfg.HomeDir 0o666] := by
  by_cases hv : cfg.HomeDir = "" ∨ env.isAbs cfg.HomeDir = false
  · left
    unfold runDaemon
    simp only [hv, if_true]
  · right
    have hv2 : validHome env cfg := by
      unfold validHome
      constructor
      · exact fun h0 => hv (Or.inl h0)
      · cases hab : env.isAbs cfg.HomeDir with
        | true => rfl
        | false => exact absurd (Or.inr hab) hv
    unfold homeReady homeMissing at h
    unfold runDaemon
    simp only [hv, if_false]
    cases hst : env.statHome with
    | none => simp [hst, hv2] at h
    | some err =>
      cases hne : err.notExist with
      | false => simp [hst, hne, hv2] at h
      | true =>
        cases hm : env.mkdirAll with
        | none => simp [hst, hne, hv2, hm] at h
        | some e => simp [hne]

theorem initLog_no_call (cfg : Config) : calls (initLog cfg) = [] := by
  unfold initLog
  cases cfg.Debug <;> simp [calls]

theorem runDaemon_not_homeReady_no_call (env : Env) (cfg : Config) (hs : List Handle)
    (h : ¬ homeReady env cfg) : calls (runDaemon env cfg hs).trace = [] := by
  rcases runDaemon_of_not_homeReady env cfg hs h with h1 | h1 <;> rw [h1]
  · exact initLog_no_call cfg
  · simp [calls_append, initLog_no_call, calls]

theorem calls_handleLoop (res : Nat → Option Error) (hs : List Handle) :
    ∀ i, calls (handleLoop res i hs) = hs := by
  induction hs with
  | nil => intro i; rfl
  | cons h hs ih =>
    intro i
    cases h <;> cases hr : res i <;> simp [handleLoop, Handle.event, calls, hr, ih]

theorem calls_onSignal (res : Nat → Option Error) (sig : Signal) (hs : List Handle) :
    calls (onSignal res sig hs) = hs := by
  simp [onSignal, calls_append, calls, calls_handleLoop]

theorem countStopAll_append (s t : List Event) :
    countStopAll (s ++ t) = countStopAll s + countStopAll t := by
  induction s with
  | nil => simp [countStopAll]
  | cons e s ih =>
    cases e <;> simp [countStopAll, ih]
    omega

theorem countStopAll_of_calls_nil (t : List Event) (h : calls t = []) : countStopAll t = 0 := by
  induction t with
  | nil => rfl
  | cons e t ih => cases e <;> simp_all [calls, countStopAll]

/-! ## Lemmas on executions -/

theorem exec_cons (res : Nat → Option Error) (s : Sys) (t : Tick) (ts : List Tick) :
    exec res s (t :: ts) = exec res (step res s t) ts := rfl

theorem perform_exited (s : Sys) (w : Who) (e : Event) (h : ∀ c, e ≠ .exit c) :
    (Sys.perform s w e).exited = s.exited := by
  cases e <;> first | rfl | exact absurd rfl (h _)

theorem perform_main (s : Sys) (w : Who) (e : Event) : (Sys.perform s w e).main = s.main := by
  cases e <;> rfl

theorem perform_trace (s : Sys) (w : Who) (e : Event) :
    (Sys.perform s w e).trace = s.trace ++ [(w, e)] := by
  cases e <;> rfl

theorem perform_sigHandles (s : Sys) (w : Who) (e : Event) :
    (Sys.perform s w e).sigHandles = s.sigHandles ++ registered [e] := by
  cases e <;> simp [Sys.perform, registered]

theorem perform_lis (s : Sys) (w : Who) (e : Event) :
    (Sys.perform s w e).lis = if e = .go then .waiting else s.lis := by
  cases e <;> simp [Sys.perform]

theorem perform_set_main (s : Sys) (w : Who) (e : Event) (m : List Event) :
    { Sys.perform s w e with main := m } = Sys.perform { s with main := m } w e := by
  cases e <;> rfl

/-- Ticks of the main goroutine perform its pending actions in order. -/
theorem exec_main (res : Nat → Option Error) (pre rest : List Event)
    (hpre : ∀ e ∈ pre, ∀ c, e ≠ .exit c) :
    ∀ s : Sys, s.exited = none → s.main = pre ++ rest →
      exec res s (List.replicate pre.length .main)
        = Sys.performAll { s with main := rest } .main pre := by
  induction pre with
  | nil =>
    intro s _ hm
    simp only [List.nil_append] at hm
    simp [exec, Sys.performAll, ← hm]
  | cons e pre ih =>
    intro s hex hm
    have he : ∀ c, e ≠ .exit c := hpre e (List.mem_cons_self _ _)
    have hstep : step res s .main = Sys.perform { s with main := pre ++ rest } .main e := by
      simp [step, hex, hm]
    simp only [List.length_cons, List.replicate_succ, exec_cons, hstep]
    rw [ih (fun e he c => hpre e (List.mem_cons_of_mem _ he) c)]
    · simp only [Sys.performAll, List.foldl_cons]
      rw [perform_set_main]
    · rw [perform_exited _ _ _ he]; exact hex
    · rw [perform_main]

theorem performAll_append (s : Sys) (w : Who) (a b : List Event) :
    Sys.performAll s w (a ++ b) = Sys.performAll (Sys.performAll s w a) w b := by
  simp [Sys.performAll, List.foldl_append]

theorem performAll_inert (w : Who) (es : List Event) (h : ∀ e ∈ es, e.inert = true) :
    ∀ s : Sys, Sys.performAll s w es = { s with trace := s.trace ++ es.map (fun e => (w, e)) } := by
  induction es with
  | nil => intro s; simp [Sys.performAll]
  | cons e es ih =>
    intro s
    have he : e.inert = true := h e (List.mem_cons_self _ _)
    have h1 : Sys.perform s w e = { s with trace := s.trace ++ [(w, e)] } := by
      cases e <;> first | rfl | simp [Event.inert] at he
    simp only [Sys.performAll, List.foldl_cons] at ih ⊢
    rw [h1, ih (fun e he => h e (List.mem_cons_of_mem _ he))]
    simp

theorem homeTrace_inert (env : Env) (cfg : Config) :
    ∀ e ∈ homeTrace env cfg ++ cleanAddr env cfg, e.inert = true := by
  unfold homeTrace cleanAddr initLog
  cases cfg.Debug <;> cases homeMissing env <;> cases env.statAddr <;> simp [Event.inert]

/-! ## Validation of the home directory -/

/-- C1: with an empty or non-absolute home directory `runDaemon` returns the
error "invalid pouchd's home dir: <dir>", leaves `sigHandles` as it was, and has
performed only the logger set-up of `initLog`: no filesystem call, no `RunAll`,
no `StopAll`, no registration, no signal listener, no daemon. -/
theorem runDaemon_invalid_home (env : Env) (cfg : Config) (hs : List Handle)
    (h : cfg.HomeDir = "" ∨ env.isAbs cfg.HomeDir = false) :
    runDaemon env cfg hs =
        ⟨some (Errorf ("invalid pouchd's home dir: " ++ cfg.HomeDir)), hs, initLog cfg⟩
      ∧ (∀ e ∈ (runDaemon env cfg hs).trace, e.isLog = true)
      ∧ calls (runDaemon env cfg hs).trace = [] := by
  have hrun : runDaemon env cfg hs =
      ⟨some (Errorf ("invalid pouchd's home dir: " ++ cfg.HomeDir)), hs, initLog cfg⟩ := by
    unfold runDaemon
    simp only [h, if_true]
  refine ⟨hrun, ?_, ?_⟩
  · rw [hrun]; exact initLog_isLog cfg
  · rw [hrun]
    show calls (initLog cfg) = []
    unfold initLog
    cases cfg.Debug <;> simp [calls]

/-- Witness of C1: a relative home directory. -/
theorem runDaemon_invalid_home_witness :
    (cfgRelHome.HomeDir = "" ∨ envOk.isAbs cfgRelHome.HomeDir = false)
      ∧ runDaemon envOk cfgRelHome [] =
          ⟨some (Errorf "invalid pouchd's home dir: pouchd"), [], [.setFormatter]⟩ :=
  ⟨by decide, (runDaemon_invalid_home envOk cfgRelHome [] (by decide)).1⟩

/-! ## The handler pass of the signal goroutine -/

/-- C2: for every content of `sigHandles` and every outcome of the handlers, the
pass started by a signal calls every handler exactly once, in registration
order; with three handlers of which the second fails the actions are: warning,
handler 1, handler 2, error log, handler 3, exit. -/
theorem onSignal_calls_all (res : Nat → Option Error) (sig : Signal) :
    (∀ hs : List Handle, calls (onSignal res sig hs) = hs)
      ∧ ∀ (h1 h2 h3 : Handle) (err : Error),
          onSignal (fun i => if i = 1 then some err else none) sig [h1, h2, h3] =
            [.log .warn ("received signal: " ++ sig.String), h1.event, h2.event,
             .log .error ("failed to handle signal: " ++ err.msg), h3.event, .exit 1] := by
  constructor
  · intro hs
    exact calls_onSignal res sig hs
  · intro h1 h2 h3 err
    simp [onSignal, handleLoop]

/-! ## Launch of the dependency -/

/-- C4: when the run gets past the home directory and `processes.RunAll`
returns the error `e`, `runDaemon` returns `e` itself; `sigHandles` is unchanged,
and after `RunAll` the only action is the deferred `processes.StopAll`: no
registration, no `signal.Notify`, no goroutine, no `NewDaemon`, no `d.Run`. -/
theorem runDaemon_runAll_error (env : Env) (cfg : Config) (hs : List Handle) (e : Error)
    (hh : homeReady env cfg) (hr : env.runAll = some e) :
    runDaemon env cfg hs =
        ⟨some e, hs, homeTrace env cfg ++ cleanAddr env cfg ++
          [.runAll (processes env cfg), .stopAll (processes env cfg)]⟩
      ∧ calls (runDaemon env cfg hs).trace = [.stopAll (processes env cfg)] := by
  have hrun : runDaemon env cfg hs =
      ⟨some e, hs, homeTrace env cfg ++ cleanAddr env cfg ++
        [.runAll (processes env cfg), .stopAll (processes env cfg)]⟩ := by
    rw [runDaemon_of_homeReady env cfg hs hh]
    simp [Result.after, startProcesses, deferStopAll, runDaemonBody, hr]
  refine ⟨hrun, ?_⟩
  rw [hrun]
  simp [calls_append, homeTrace_no_call, cleanAddr_no_call, calls]

/-- Witness of C4: the default configuration with a containerd that cannot be
launched. -/
theorem runDaemon_runAll_error_witness :
    homeReady envRunAllFails cfgDefault
      ∧ runDaemon envRunAllFails cfgDefault [] =
          ⟨some ⟨"exec: containerd: file not found", false⟩, [],
            [.setFormatter, .stat "/etc/pouchd", .stat "/var/run/containerd.sock",
             .runAll (processes envRunAllFails cfgDefault),
             .stopAll (processes envRunAllFails cfgDefault)]⟩ :=
  ⟨by decide,
   (runDaemon_runAll_error envRunAllFails cfgDefault [] _ (by decide) rfl).1⟩

/-- C7: in a run that gets past the home directory, `os.Stat` of the containerd
address is followed by `os.RemoveAll` of it exactly when the stat succeeded, and
in both cases the next action is `processes.RunAll`; the result of the removal
changes nothing. -/
theorem runDaemon_stale_addr (env : Env) (cfg : Config) (hs : List Handle)
    (hh : homeReady env cfg) :
    (env.statAddr = none → ∃ rest, (runDaemon env cfg hs).trace =
        homeTrace env cfg ++ [.stat cfg.ContainerdAddr, .removeAll cfg.ContainerdAddr,
          .runAll (processes env cfg)] ++ rest)
      ∧ (∀ e, env.statAddr = some e →
          (∃ rest, (runDaemon env cfg hs).trace =
            homeTrace env cfg ++ [.stat cfg.ContainerdAddr, .runAll (processes env cfg)] ++ rest)
          ∧ ∀ p, Event.removeAll p ∉ (runDaemon env cfg hs).trace)
      ∧ ∀ r, runDaemon { env with removeAll := r } cfg hs = runDaemon env cfg hs := by
  have ht := runDaemon_trace_of_homeReady env cfg hs hh
  refine ⟨?_, ?_, ?_⟩
  · intro h
    rw [ht]
    unfold runDaemonBody cleanAddr
    cases env.runAll <;> cases env.newDaemon <;> simp [h]
  · intro e h
    rw [ht]
    constructor
    · unfold runDaemonBody cleanAddr
      cases env.runAll <;> cases env.newDaemon <;> simp [h]
    · intro p
      unfold runDaemonBody cleanAddr homeTrace initLog
      cases env.runAll <;> cases env.newDaemon <;> cases cfg.Debug <;> cases homeMissing env <;>
        simp [h]
  · intro r
    rfl

/-- Witness of C7: a stale socket at the default containerd address. -/
theorem runDaemon_stale_addr_witness :
    homeReady envFresh cfgDefault
      ∧ ∃ rest, (runDaemon envFresh cfgDefault []).trace =
          homeTrace envFresh cfgDefault ++
            [.stat "/var/run/containerd.sock", .removeAll "/var/run/containerd.sock",
             .runAll (processes envFresh cfgDefault)] ++ rest :=
  ⟨by decide, (runDaemon_stale_addr envFresh cfgDefault [] (by decide)).1 rfl⟩

/-! ## Creation of the home directory -/

/-- C6: when the home directory is valid and the first `os.Stat` reports that it
does not exist, `os.MkdirAll(dir, 0666)` is the first action after that stat
(before the containerd address is looked at and before any launch); if it fails
with `e` the run returns "failed to mkdir: <e>" with nothing launched, registered
or constructed; if it succeeds the rest of the run is the one of an existing
directory. -/
theorem runDaemon_home_missing (env : Env) (cfg : Config) (hs : List Handle) (err : Error)
    (hv : validHome env cfg) (hst : env.statHome = some err) (hne : err.notExist = true) :
    (∃ rest, (runDaemon env cfg hs).trace =
        initLog cfg ++ [.stat cfg.HomeDir, .mkdirAll cfg.HomeDir 0o666] ++ rest)
      ∧ (∀ e, env.mkdirAll = some e →
          runDaemon env cfg hs =
            ⟨some (Errorf ("failed to mkdir: " ++ e.msg)), hs,
              initLog cfg ++ [.stat cfg.HomeDir, .mkdirAll cfg.HomeDir 0o666]⟩)
      ∧ (env.mkdirAll = none →
          runDaemon env cfg hs =
              (startProcesses env cfg hs).after
                (initLog cfg ++ [.stat cfg.HomeDir, .mkdirAll cfg.HomeDir 0o666])
            ∧ runDaemon { env with statHome := none } cfg hs =
              (startProcesses env cfg hs).after (initLog cfg ++ [.stat cfg.HomeDir])) := by
  obtain ⟨h1, h2⟩ := hv
  refine ⟨?_, ?_, ?_⟩
  · unfold runDaemon
    cases hm : env.mkdirAll with
    | some e => exact ⟨[], by simp [h1, h2, hst, hne]⟩
    | none =>
      exact ⟨(startProcesses env cfg hs).trace, by simp [h1, h2, hst, hne, Result.after]⟩
  · intro e hm
    unfold runDaemon
    simp [h1, h2, hst, hne, hm]
  · intro hm
    constructor
    · unfold runDaemon
      simp [h1, h2, hst, hne, hm]
    · unfold runDaemon
      simp only [h1, h2, false_or, Bool.true_eq_false, if_false]
      rfl

/-- Witness of C6: the default home directory is missing and `MkdirAll` is
refused. -/
theorem runDaemon_home_missing_witness :
    (validHome envMkdirFails cfgDefault
        ∧ envMkdirFails.statHome = some ⟨"stat /etc/pouchd: no such file or directory", true⟩)
      ∧ runDaemon envMkdirFails cfgDefault [] =
          ⟨some (Errorf "failed to mkdir: mkdir /etc/pouchd: permission denied"), [],
            [.setFormatter, .stat "/etc/pouchd", .mkdirAll "/etc/pouchd" 438]⟩ :=
  ⟨⟨by decide, rfl⟩,
   (runDaemon_home_missing envMkdirFails cfgDefault [] _ (by decide) rfl rfl).2.1 _ rfl⟩

/-! ## Construction of the daemon -/

/-- C8: in a run from the empty registry that gets past the home directory and
whose `RunAll` succeeds, a nil daemon makes `runDaemon` return "failed to new
daemon" with `sigHandles = [processes.StopAll]` and without `d.Run`; with a
daemon `d`, `d.Shutdown` is registered, `d.Run` is called and `runDaemon`
returns what `d.Run()` returned. -/
theorem runDaemon_newDaemon (env : Env) (cfg : Config)
    (hh : homeReady env cfg) (hr : env.runAll = none) :
    (env.newDaemon = none →
        runDaemon env cfg [] =
          ⟨some (Errorf "failed to new daemon"), [.stopAll (processes env cfg)],
            homeTrace env cfg ++ cleanAddr env cfg ++
              [.runAll (processes env cfg), .register (.stopAll (processes env cfg)),
               .notify notified, .go, .newDaemon cfg, .stopAll (processes env cfg)]⟩)
      ∧ ∀ d, env.newDaemon = some d →
          (runDaemon env cfg []).ret = env.run
            ∧ (runDaemon env cfg []).sigHandles = [.stopAll (processes env cfg), .shutdown d]
            ∧ Event.run d ∈ (runDaemon env cfg []).trace := by
  rw [runDaemon_of_homeReady env cfg [] hh]
  constructor
  · intro hn
    simp [Result.after, startProcesses, deferStopAll, runDaemonBody, hr, hn]
  · intro d hn
    simp [Result.after, startProcesses, deferStopAll, runDaemonBody, hr, hn]

/-- Witness of C8: the default configuration without and with a daemon. -/
theorem runDaemon_newDaemon_witness :
    (homeReady envNoDaemon cfgDefault ∧ envNoDaemon.runAll = none)
      ∧ (runDaemon envNoDaemon cfgDefault []).ret = some (Errorf "failed to new daemon")
      ∧ (runDaemon envOk cfgDefault []).ret = none :=
  ⟨⟨by decide, rfl⟩,
   congrArg Result.ret ((runDaemon_newDaemon envNoDaemon cfgDefault (by decide) rfl).1 rfl),
   ((runDaemon_newDaemon envOk cfgDefault (by decide) rfl).2 _ rfl).1⟩

/-! ## The process set -/

/-- C10: the process set of `runDaemon` is one spec, with path
`cfg.ContainerdPath` and the ten arguments `-c`, config, `-a`, address, `--root`,
`<home>/containerd/root`, `--state`, `<home>/containerd/state`, `-l`, level, the
level being "debug" with `cfg.Debug` and "info" without; it is the set every
`RunAll` and `StopAll` of `runDaemon` is called on. -/
theorem processes_spec (env : Env) (cfg : Config) (hs : List Handle) :
    processes env cfg =
        [⟨cfg.ContainerdPath,
          ["-c", cfg.ContainerdConfig, "-a", cfg.ContainerdAddr,
           "--root", env.join cfg.HomeDir "containerd/root",
           "--state", env.join cfg.HomeDir "containerd/state",
           "-l", if cfg.Debug = true then "debug" else "info"]⟩]
      ∧ (∀ p ∈ processes env cfg, p.Args.length = 10)
      ∧ (∀ ps, Event.runAll ps ∈ (runDaemon env cfg hs).trace → ps = processes env cfg)
      ∧ (∀ ps, Event.stopAll ps ∈ (runDaemon env cfg hs).trace → ps = processes env cfg) := by
  refine ⟨rfl, ?_, ?_, ?_⟩
  · intro p hp
    simp only [processes, List.mem_singleton] at hp
    subst hp
    rfl
  · intro ps
    by_cases hh : homeReady env cfg
    · rw [runDaemon_trace_of_homeReady env cfg hs hh]
      unfold runDaemonBody cleanAddr homeTrace initLog
      cases env.runAll <;> cases env.newDaemon <;> cases cfg.Debug <;> cases homeMissing env <;>
        cases env.statAddr <;> simp
    · rcases runDaemon_of_not_homeReady env cfg hs hh with h1 | h1 <;> rw [h1] <;>
        unfold initLog <;> cases cfg.Debug <;> simp
  · intro ps
    by_cases hh : homeReady env cfg
    · rw [runDaemon_trace_of_homeReady env cfg hs hh]
      unfold runDaemonBody cleanAddr homeTrace initLog
      cases env.runAll <;> cases env.newDaemon <;> cases cfg.Debug <;> cases homeMissing env <;>
        cases env.statAddr <;> simp
    · rcases runDaemon_of_not_homeReady env cfg hs hh with h1 | h1 <;> rw [h1] <;>
        unfold initLog <;> cases cfg.Debug <;> simp

/-! ## The deferred stop -/

/-- C5, as stated, fails: with an empty home directory, and with a home
directory that cannot be created, `runDaemon` returns without any call of
`processes.StopAll`. -/
theorem runDaemon_early_return_no_stopAll :
    ((runDaemon envOk cfgNoHome []).ret = some (Errorf "invalid pouchd's home dir: ")
        ∧ countStopAll (runDaemon envOk cfgNoHome []).trace = 0)
      ∧ ((runDaemon envMkdirFails cfgDefault []).ret =
            some (Errorf "failed to mkdir: mkdir /etc/pouchd: permission denied")
          ∧ countStopAll (runDaemon envMkdirFails cfgDefault []).trace = 0) := by
  decide

/-- C5, amended: on every return of `runDaemon` that follows the construction of
the process set (a run that gets past the home directory) `processes.StopAll` is
called exactly once and is the last action; on the returns before it (invalid
home directory, failed `MkdirAll`) it is not called; the value returned never
depends on the result of `StopAll`. -/
theorem runDaemon_deferred_stopAll (env : Env) (cfg : Config) (hs : List Handle) :
    (homeReady env cfg →
        ∃ t, (runDaemon env cfg hs).trace = t ++ [.stopAll (processes env cfg)]
          ∧ countStopAll t = 0
          ∧ countStopAll (runDaemon env cfg hs).trace = 1)
      ∧ (¬ homeReady env cfg → countStopAll (runDaemon env cfg hs).trace = 0)
      ∧ ∀ r, (runDaemon { env with stopAll := r } cfg hs).ret = (runDaemon env cfg hs).ret := by
  refine ⟨?_, ?_, ?_⟩
  · intro hh
    have ht := runDaemon_trace_of_homeReady env cfg hs hh
    have h0 : countStopAll (homeTrace env cfg ++ cleanAddr env cfg
        ++ (runDaemonBody env cfg (processes env cfg) hs).trace) = 0 := by
      apply countStopAll_of_calls_nil
      simp [calls_append, homeTrace_no_call, cleanAddr_no_call, runDaemonBody_no_call]
    refine ⟨_, ht, h0, ?_⟩
    rw [ht, countStopAll_append, h0]
    rfl
  · intro hh
    exact countStopAll_of_calls_nil _ (runDaemon_not_homeReady_no_call env cfg hs hh)
  · intro r
    rfl

/-- Witness of the amended C5: a run that reaches the `defer` and one that does
not. -/
theorem runDaemon_deferred_stopAll_witness :
    (homeReady envOk cfgDefault ∧ ¬ homeReady envOk cfgRelHome)
      ∧ countStopAll (runDaemon envOk cfgDefault []).trace = 1
      ∧ countStopAll (runDaemon envOk cfgRelHome []).trace = 0 :=
  ⟨by decide,
   ((runDaemon_deferred_stopAll envOk cfgDefault []).1 (by decide)).choose_spec.2.2,
   (runDaemon_deferred_stopAll envOk cfgRelHome []).2.1 (by decide)⟩

/-! ## A signal while the daemon runs -/

theorem mainActions_of_daemon (env : Env) (cfg : Config) (d : Daemon)
    (hh : homeReady env cfg) (hr : env.runAll = none) (hd : env.newDaemon = some d) :
    mainActions env cfg = untilRun env cfg d ++
      [.runReturned d, .stopAll (processes env cfg), .exit (exitStatus env.run)] := by
  unfold mainActions
  rw [runDaemon_of_homeReady env cfg [] hh]
  simp [Result.after, startProcesses, deferStopAll, runDaemonBody, hr, hd, untilRun]

theorem exec_untilRun (res : Nat → Option Error) (env : Env) (cfg : Config) (d : Daemon)
    (hh : homeReady env cfg) (hr : env.runAll = none) (hd : env.newDaemon = some d) :
    exec res (Sys.init env cfg) (List.replicate (untilRun env cfg d).length .main)
      = Sys.atRun env cfg d := by
  have hinert := homeTrace_inert env cfg
  rw [exec_main res (untilRun env cfg d)
    [.runReturned d, .stopAll (processes env cfg), .exit (exitStatus env.run)]]
  · unfold untilRun
    rw [performAll_append, performAll_inert _ _ hinert]
    simp [Sys.performAll, Sys.perform, Sys.init, Sys.atRun, untilRun]
  · intro e he c
    unfold untilRun at he
    rw [List.mem_append] at he
    rcases he with he | he
    · intro hc
      have := hinert e he
      rw [hc] at this
      simp [Event.inert] at this
    · simp at he
      rcases he with h | h | h | h | h | h | h <;> rw [h] <;> simp
  · rfl
  · exact mainActions_of_daemon env cfg d hh hr hd

/-! ## Both goroutines: how often a handler can run -/

theorem nk_append (k : Kind) (a b : List Handle) : nk k (a ++ b) = nk k a + nk k b := by
  simp [nk, List.countP_append]

theorem registered_cons (e : Event) (t : List Event) :
    registered (e :: t) = registered [e] ++ registered t := by
  cases e <;> simp [registered]

theorem calls_cons (e : Event) (t : List Event) : calls (e :: t) = calls [e] ++ calls t := by
  cases e <;> simp [calls]

theorem actionsOf_snoc (w v : Who) (t : List (Who × Event)) (e : Event) :
    actionsOf w (t ++ [(v, e)]) = actionsOf w t ++ (if v = w then [e] else []) := by
  by_cases h : v = w <;> simp [actionsOf, h]

theorem handleLoop_no_go (res : Nat → Option Error) (hs : List Handle) :
    ∀ i, Event.go ∉ handleLoop res i hs := by
  induction hs with
  | nil => intro i; simp [handleLoop]
  | cons h hs ih =>
    intro i
    cases h <;> cases hr : res i <;> simp [handleLoop, Handle.event, hr, ih]

theorem step_main_tick (k : Kind) (s : Sys) (e : Event) (rest : List Event)
    (hm : s.main = e :: rest) (h1 : spawnOnce s) (h2 : goFree s) :
    spawnOnce (Sys.perform { s with main := rest } .main e)
      ∧ goFree (Sys.perform { s with main := rest } .main e)
      ∧ doneBy .listener k (Sys.perform { s with main := rest } .main e)
          + pending k (Sys.perform { s with main := rest } .main e)
        ≤ doneBy .listener k s + pending k s := by
  generalize hs1 : Sys.perform { s with main := rest } .main e = s1
  have hl : s1.lis = if e = .go then .waiting else s.lis := by rw [← hs1]; exact perform_lis _ _ _
  have hmn : s1.main = rest := by rw [← hs1]; exact perform_main _ _ _
  have hsh : s1.sigHandles = s.sigHandles ++ registered [e] := by
    rw [← hs1]; exact perform_sigHandles _ _ _
  have htr : s1.trace = s.trace ++ [(.main, e)] := by rw [← hs1]; exact perform_trace _ _ _
  have hdone : doneBy .listener k s1 = doneBy .listener k s := by
    simp [doneBy, htr, actionsOf_snoc]
  unfold spawnOnce at h1 ⊢
  unfold goFree at h2 ⊢
  rw [hm, List.count_cons] at h1
  rw [hdone, hmn, hl]
  have hreg : nk k (registered (e :: rest)) = nk k (registered [e]) + nk k (registered rest) := by
    rw [registered_cons, nk_append]
  by_cases hgo : e = .go
  · subst hgo
    have hab : s.lis = .absent := by
      by_contra hne
      simp [hne] at h1
    simp only [hab, if_true, beq_self_eq_true] at h1
    have hc : List.count Event.go rest = 0 := by omega
    refine ⟨by simp [hc], by simp, ?_⟩
    simp only [pending, hl, hab, hmn, hsh, hm, hreg, nk_append, if_true]
    omega
  · have hgo2 : (e == Event.go) = false := by simpa using hgo
    simp only [hgo, if_false, hgo2] at h1 ⊢
    refine ⟨by simpa using h1, h2, ?_⟩
    unfold pending
    rw [hl, hmn, hsh, hm, hreg, nk_append]
    simp only [hgo, if_false]
    cases s.lis <;> simp only <;> omega

theorem step_listener_tick (k : Kind) (s : Sys) (e : Event) (todo : List Event)
    (hlis : s.lis = .running (e :: todo)) (h1 : spawnOnce s) (h2 : goFree s) :
    spawnOnce (Sys.perform { s with lis := .running todo } .listener e)
      ∧ goFree (Sys.perform { s with lis := .running todo } .listener e)
      ∧ doneBy .listener k (Sys.perform { s with lis := .running todo } .listener e)
          + pending k (Sys.perform { s with lis := .running todo } .listener e)
        ≤ doneBy .listener k s + pending k s := by
  have hno : Event.go ∉ e :: todo := h2 _ hlis
  have hgo : e ≠ .go := fun h => hno (h ▸ List.mem_cons_self _ _)
  have hgo' : Event.go ∉ todo := fun h => hno (List.mem_cons_of_mem _ h)
  generalize hs1 : Sys.perform { s with lis := .running todo } .listener e = s1
  have hl : s1.lis = .running todo := by
    rw [← hs1, perform_lis]; simp [hgo]
  have hmn : s1.main = s.main := by rw [← hs1]; exact perform_main _ _ _
  have htr : s1.trace = s.trace ++ [(.listener, e)] := by rw [← hs1]; exact perform_trace _ _ _
  refine ⟨?_, ?_, ?_⟩
  · unfold spawnOnce at h1 ⊢
    rw [hmn, hl]
    rw [hlis] at h1
    simpa using h1
  · intro td htd
    rw [hl] at htd
    cases htd
    exact hgo'
  · simp only [doneBy, pending, hl, hlis, htr, actionsOf_snoc, if_true, calls_append, nk_append]
    rw [calls_cons e todo, nk_append]
    omega

theorem step_bound (res : Nat → Option Error) (k : Kind) (s : Sys) (t : Tick)
    (h1 : spawnOnce s) (h2 : goFree s) :
    spawnOnce (step res s t) ∧ goFree (step res s t)
      ∧ doneBy .listener k (step res s t) + pending k (step res s t)
        ≤ doneBy .listener k s + pending k s := by
  unfold step
  split
  · exact ⟨h1, h2, le_refl _⟩
  · cases t with
    | main =>
      simp only
      split
      · exact ⟨h1, h2, le_refl _⟩
      · next e rest hm => exact step_main_tick k s e rest hm h1 h2
    | signal sig =>
      simp only
      split
      · split
        · exact ⟨h1, h2, le_refl _⟩
        · exact ⟨h1, h2, le_refl _⟩
      · exact ⟨h1, h2, le_refl _⟩
    | listener =>
      simp only
      split
      · exact ⟨h1, h2, le_refl _⟩
      · next hl =>
        split
        · refine ⟨?_, ?_, ?_⟩
          · unfold spawnOnce at h1 ⊢
            rw [hl] at h1
            simpa using h1
          · intro td htd
            simp at htd
          · simp [doneBy, pending, hl]
        · exact ⟨h1, h2, le_refl _⟩
      · next sig hl =>
        generalize hs1 : Sys.perform { s with lis := .ranging } .listener
          (.log .warn ("received signal: " ++ sig.String)) = s1
        have hl1 : s1.lis = .ranging := by rw [← hs1, perform_lis]; simp
        have hmn : s1.main = s.main := by rw [← hs1]; exact perform_main _ _ _
        have hsh : s1.sigHandles = s.sigHandles := by
          rw [← hs1, perform_sigHandles]; simp [registered]
        have htr : s1.trace = s.trace ++
            [(.listener, .log .warn ("received signal: " ++ sig.String))] := by
          rw [← hs1]; exact perform_trace _ _ _
        refine ⟨?_, ?_, ?_⟩
        · unfold spawnOnce at h1 ⊢
          rw [hmn, hl1]
          rw [hl] at h1
          simpa using h1
        · intro td htd
          rw [hl1] at htd
          cases htd
        · simp [doneBy, pending, hl, hl1, hmn, hsh, htr, actionsOf_snoc, calls_append, calls]
      · next hl =>
        refine ⟨?_, ?_, ?_⟩
        · unfold spawnOnce at h1 ⊢
          rw [hl] at h1
          simpa using h1
        · intro td htd
          simp only [Lis.running.injEq] at htd
          subst htd
          simp [handleLoop_no_go]
        · simp [doneBy, pending, hl, calls_append, calls_handleLoop, calls]
      · exact ⟨h1, h2, le_refl _⟩
      · next e todo hl => exact step_listener_tick k s e todo hl h1 h2

theorem exec_bound (res : Nat → Option Error) (k : Kind) (sched : List Tick) :
    ∀ s : Sys, spawnOnce s → goFree s →
      doneBy .listener k (exec res s sched) + pending k (exec res s sched)
        ≤ doneBy .listener k s + pending k s := by
  induction sched with
  | nil => intro s _ _; exact le_refl _
  | cons t ts ih =>
    intro s h1 h2
    obtain ⟨h1', h2', hle⟩ := step_bound res k s t h1 h2
    rw [exec_cons]
    exact le_trans (ih _ h1' h2') hle


theorem step_main_bound (res : Nat → Option Error) (k : Kind) (s : Sys) (t : Tick) :
    doneBy .main k (step res s t) + nk k (calls (step res s t).main)
      ≤ doneBy .main k s + nk k (calls s.main) := by
  unfold step
  split
  · exact le_refl _
  · cases t with
    | main =>
      simp only
      split
      · exact le_refl _
      · next e rest hm =>
        simp only [doneBy, perform_trace, perform_main, actionsOf_snoc, if_true, calls_append,
          nk_append, hm]
        rw [calls_cons e rest, nk_append]
        omega
    | signal sig =>
      simp only
      split
      · split <;> exact le_refl _
      · exact le_refl _
    | listener =>
      simp only
      split
      · exact le_refl _
      · split <;> exact le_refl _
      · simp [doneBy, perform_trace, perform_main, actionsOf_snoc]
      · exact le_refl _
      · exact le_refl _
      · simp [doneBy, perform_trace, perform_main, actionsOf_snoc]

theorem exec_main_bound (res : Nat → Option Error) (k : Kind) (sched : List Tick) :
    ∀ s : Sys, doneBy .main k (exec res s sched) + nk k (calls (exec res s sched).main)
      ≤ doneBy .main k s + nk k (calls s.main) := by
  induction sched with
  | nil => intro s; exact le_refl _
  | cons t ts ih =>
    intro s
    rw [exec_cons]
    exact le_trans (ih _) (step_main_bound res k s t)

theorem mainActions_cases (env : Env) (cfg : Config) :
    ∃ pre post, mainActions env cfg = pre ++ post ∧ (∀ e ∈ pre, e.inert = true)
      ∧ calls pre = []
      ∧ (post = [.exit (exitStatus (runDaemon env cfg []).ret)]
        ∨ post = (runDaemonBody env cfg (processes env cfg) []).trace
            ++ [.stopAll (processes env cfg), .exit (exitStatus (runDaemon env cfg []).ret)]) := by
  by_cases hh : homeReady env cfg
  · refine ⟨homeTrace env cfg ++ cleanAddr env cfg, _, ?_, homeTrace_inert env cfg, ?_,
      Or.inr rfl⟩
    · unfold mainActions
      rw [runDaemon_trace_of_homeReady env cfg [] hh]
      simp
    · simp [calls_append, homeTrace_no_call, cleanAddr_no_call]
  · refine ⟨(runDaemon env cfg []).trace, _, rfl, ?_,
      runDaemon_not_homeReady_no_call env cfg [] hh, Or.inl rfl⟩
    rcases runDaemon_of_not_homeReady env cfg [] hh with h1 | h1 <;> rw [h1] <;>
      unfold initLog <;> cases cfg.Debug <;> simp [Event.inert]

theorem registered_append (s t : List Event) :
    registered (s ++ t) = registered s ++ registered t := by
  induction s with
  | nil => rfl
  | cons e s ih => cases e <;> simp [registered, ih]

theorem registered_inert (t : List Event) (h : ∀ e ∈ t, e.inert = true) : registered t = [] := by
  induction t with
  | nil => rfl
  | cons e t ih =>
    have he := h e (List.mem_cons_self _ _)
    have := ih (fun e he => h e (List.mem_cons_of_mem _ he))
    cases e <;> simp_all [registered, Event.inert]

theorem count_go_inert (t : List Event) (h : ∀ e ∈ t, e.inert = true) :
    t.count Event.go = 0 := by
  rw [List.count_eq_zero]
  intro hmem
  have := h _ hmem
  simp [Event.inert] at this

theorem init_facts (env : Env) (cfg : Config) (k : Kind) :
    (mainActions env cfg).count Event.go ≤ 1
      ∧ nk k (registered (mainActions env cfg)) ≤ 1
      ∧ nk .stopAll (calls (mainActions env cfg)) ≤ 1
      ∧ nk .shutdown (calls (mainActions env cfg)) = 0 := by
  obtain ⟨pre, post, hm, hin, hc, hpost⟩ := mainActions_cases env cfg
  rw [hm]
  simp only [List.count_append, registered_append, calls_append, nk_append,
    count_go_inert pre hin, registered_inert pre hin, hc]
  rcases hpost with h | h <;> rw [h]
  · simp [registered, calls, nk]
  · unfold runDaemonBody
    cases env.runAll <;> cases env.newDaemon <;> cases k <;>
      simp [registered, calls, nk, Handle.kind, List.count_cons]

/-- C9, amended: `runDaemon` has no single-shot gate, the deferred
`processes.StopAll` and the pass of the signal goroutine run independently of
each other.  What holds in every execution, whatever the schedule, the signals
and the outcomes of the calls: the main goroutine calls `processes.StopAll` at
most once and never `d.Shutdown`, and the signal goroutine calls
`processes.StopAll` at most once and `d.Shutdown` at most once. -/
theorem calls_once_per_goroutine (res : Nat → Option Error) (env : Env) (cfg : Config)
    (sched : List Tick) :
    doneBy .main .stopAll (exec res (Sys.init env cfg) sched) ≤ 1
      ∧ doneBy .main .shutdown (exec res (Sys.init env cfg) sched) = 0
      ∧ doneBy .listener .stopAll (exec res (Sys.init env cfg) sched) ≤ 1
      ∧ doneBy .listener .shutdown (exec res (Sys.init env cfg) sched) ≤ 1 := by
  have hinit : ∀ k, doneBy .listener k (Sys.init env cfg) + pending k (Sys.init env cfg) ≤ 1 := by
    intro k
    simpa [doneBy, pending, Sys.init, actionsOf, calls, nk] using (init_facts env cfg k).2.1
  have hsp : spawnOnce (Sys.init env cfg) := by
    simpa [spawnOnce, Sys.init] using (init_facts env cfg .stopAll).1
  have hgf : goFree (Sys.init env cfg) := by
    intro td htd
    simp [Sys.init] at htd
  have hL := fun k => le_trans (exec_bound res k sched _ hsp hgf) (hinit k)
  have hM := fun k => exec_main_bound res k sched (Sys.init env cfg)
  have hm1 : doneBy .main .stopAll (Sys.init env cfg)
      + nk .stopAll (calls (Sys.init env cfg).main) ≤ 1 := by
    simpa [doneBy, Sys.init, actionsOf, calls, nk] using (init_facts env cfg .stopAll).2.2.1
  have hm2 : doneBy .main .shutdown (Sys.init env cfg)
      + nk .shutdown (calls (Sys.init env cfg).main) = 0 := by
    simpa [doneBy, Sys.init, actionsOf, calls, nk] using (init_facts env cfg .stopAll).2.2.2
  have a1 := hM .stopAll
  have a2 := hM .shutdown
  have a3 := hL .stopAll
  have a4 := hL .shutdown
  refine ⟨by omega, by omega, by omega, by omega⟩

/-- C9, as stated, fails: in the sample run a SIGTERM arrives while the main
goroutine is in `d.Run()`; the signal goroutine calls `StopAll` and `Shutdown`,
`d.Run()` returns, and the deferred `StopAll` of the main goroutine runs as
well, so `processes.StopAll` runs twice before the process exits. -/
theorem both_stop :
    (exec (fun _ => none) (Sys.init envOk cfgDefault) schedBoth).trace.drop 10 =
        [(.listener, .log .warn "received signal: terminated"),
         (.listener, .stopAll (processes envOk cfgDefault)),
         (.listener, .shutdown ⟨1⟩),
         (.main, .runReturned ⟨1⟩),
         (.main, .stopAll (processes envOk cfgDefault)),
         (.listener, .exit 1)]
      ∧ doneBy .main .stopAll (exec (fun _ => none) (Sys.init envOk cfgDefault) schedBoth) = 1
      ∧ doneBy .listener .stopAll (exec (fun _ => none) (Sys.init envOk cfgDefault) schedBoth) = 1
      ∧ countStopAll
          ((exec (fun _ => none) (Sys.init envOk cfgDefault) schedBoth).trace.map Prod.snd) = 2 := by
  decide


/-! ## From the call of `d.Run()` on: every schedule -/

theorem actionsOf_map_other (w v : Who) (hne : v ≠ w) (es : List Event) :
    actionsOf w (es.map (fun e => (v, e))) = [] := by
  induction es with
  | nil => rfl
  | cons e es ih =>
    simp only [actionsOf, List.map_cons] at ih ⊢
    simp [ih, hne]

theorem perform_exit_status (s : Sys) (w : Who) (c : Nat) :
    (Sys.perform s w (.exit c)).exited = some (.status c) := rfl

theorem exitRecorded_perform (s : Sys) (w : Who) (e : Event) (h0 : s.exited = none)
    (hr : exitRecorded s) : exitRecorded (Sys.perform s w e) := by
  intro w1 c hmem
  rw [perform_trace, List.mem_append] at hmem
  rcases hmem with h | h
  · have := hr w1 c h
    rw [h0] at this
    cases this
  · simp only [List.mem_singleton, Prod.mk.injEq] at h
    rw [← h.2]
    rfl

theorem handleLoop_mem (res : Nat → Option Error) (hs : List Handle) :
    ∀ i, ∀ e ∈ handleLoop res i hs, registered [e] = [] ∧ e ≠ .go ∧ ∀ c, e ≠ .exit c := by
  induction hs with
  | nil => intro i e he; simp [handleLoop] at he
  | cons h hs ih =>
    intro i e he
    simp only [handleLoop, List.mem_append, List.mem_cons] at he
    rcases he with (he | he) | he
    · subst he
      cases h <;> simp [Handle.event, registered]
    · cases hr : res i with
      | none => simp [hr] at he
      | some err =>
        simp only [hr, List.mem_singleton] at he
        subst he
        simp [registered]
    · exact ih _ e he

theorem onSignal_mem (res : Nat → Option Error) (sig : Signal) (hs : List Handle) :
    ∀ e ∈ onSignal res sig hs, registered [e] = [] ∧ e ≠ .go := by
  intro e he
  simp only [onSignal, List.mem_append, List.mem_singleton] at he
  rcases he with (he | he) | he
  · subst he; simp [registered]
  · exact ⟨(handleLoop_mem res hs 0 e he).1, (handleLoop_mem res hs 0 e he).2.1⟩
  · subst he; simp [registered]

theorem step_runInv (res : Nat → Option Error) (hs : List Handle) (s : Sys) (t : Tick)
    (h : runInv res hs s) : runInv res hs (step res s t) := by
  obtain ⟨hsh, hq, hp, hx⟩ := h
  unfold step
  split
  · exact ⟨hsh, hq, hp, hx⟩
  · next hex =>
    have hnone : s.exited = none := by
      cases he : s.exited with
      | none => rfl
      | some x => simp [he] at hex
    cases t with
    | main =>
      simp only
      split
      · exact ⟨hsh, hq, hp, hx⟩
      · next e rest hm =>
        have he := hq e (by rw [hm]; exact List.mem_cons_self _ _)
        refine ⟨?_, ?_, ?_, ?_⟩
        · rw [perform_sigHandles, he.1]
          simpa using hsh
        · intro e1 h1
          rw [perform_main] at h1
          exact hq e1 (by rw [hm]; exact List.mem_cons_of_mem _ h1)
        · unfold passShape at hp ⊢
          rw [perform_lis, perform_trace, actionsOf_snoc]
          simp only [he.2, if_false, reduceCtorEq, List.append_nil]
          exact hp
        · exact exitRecorded_perform _ _ _ hnone hx
    | signal sig =>
      simp only
      split
      · split
        · exact ⟨hsh, hq, hp, hx⟩
        · exact ⟨hsh, hq, hp, hx⟩
      · refine ⟨hsh, hq, hp, ?_⟩
        intro w c hmem
        have := hx w c hmem
        rw [hnone] at this
        cases this
    | listener =>
      simp only
      split
      · exact ⟨hsh, hq, hp, hx⟩
      · next hl =>
        split
        · refine ⟨hsh, hq, ?_, hx⟩
          unfold passShape at hp ⊢
          rw [hl] at hp
          exact hp
        · exact ⟨hsh, hq, hp, hx⟩
      · next sig hl =>
        refine ⟨?_, ?_, ?_, ?_⟩
        · rw [perform_sigHandles]
          simpa [registered] using hsh
        · intro e1 h1
          rw [perform_main] at h1
          exact hq e1 h1
        · unfold passShape at hp ⊢
          rw [hl] at hp
          rw [perform_lis, perform_trace, actionsOf_snoc]
          simp only [reduceCtorEq, if_false, if_true]
          exact ⟨sig, by simp [hp]⟩
        · exact exitRecorded_perform _ _ _ hnone hx
      · next hl =>
        refine ⟨hsh, hq, ?_, hx⟩
        unfold passShape at hp ⊢
        rw [hl] at hp
        obtain ⟨sig, hsig⟩ := hp
        exact ⟨sig, by simp [hsig, hsh, onSignal]⟩
      · exact ⟨hsh, hq, hp, hx⟩
      · next e todo hl =>
        unfold passShape at hp
        rw [hl] at hp
        obtain ⟨sig, hsig⟩ := hp
        have hmem : e ∈ onSignal res sig hs := by
          rw [← hsig]; simp
        have he := onSignal_mem res sig hs e hmem
        refine ⟨?_, ?_, ?_, ?_⟩
        · rw [perform_sigHandles, he.1]
          simpa using hsh
        · intro e1 h1
          rw [perform_main] at h1
          exact hq e1 h1
        · unfold passShape
          rw [perform_lis, perform_trace, actionsOf_snoc]
          simp only [he.2, if_false, if_true]
          exact ⟨sig, by simpa using hsig⟩
        · exact exitRecorded_perform _ _ _ hnone hx

theorem exec_runInv (res : Nat → Option Error) (hs : List Handle) (sched : List Tick) :
    ∀ s : Sys, runInv res hs s → runInv res hs (exec res s sched) := by
  induction sched with
  | nil => intro s h; exact h
  | cons t ts ih =>
    intro s h
    rw [exec_cons]
    exact ih _ (step_runInv res hs s t h)

theorem untilRun_no_exit (env : Env) (cfg : Config) (d : Daemon) :
    ∀ e ∈ untilRun env cfg d, ∀ c, e ≠ .exit c := by
  intro e he c
  unfold untilRun at he
  rw [List.mem_append] at he
  rcases he with he | he
  · intro hc
    have := homeTrace_inert env cfg e he
    rw [hc] at this
    simp [Event.inert] at this
  · simp at he
    rcases he with h | h | h | h | h | h | h <;> rw [h] <;> simp

theorem atRun_runInv (res : Nat → Option Error) (env : Env) (cfg : Config) (d : Daemon) :
    runInv res [.stopAll (processes env cfg), .shutdown d] (Sys.atRun env cfg d) := by
  refine ⟨rfl, ?_, ?_, ?_⟩
  · intro e he
    simp only [Sys.atRun, List.mem_cons, List.mem_singleton, List.not_mem_nil, or_false] at he
    rcases he with h | h | h <;> subst h <;> simp [registered]
  · unfold passShape
    simp only [Sys.atRun]
    exact actionsOf_map_other _ _ (by decide) _
  · intro w c hmem
    simp only [Sys.atRun, List.mem_map, Prod.mk.injEq] at hmem
    obtain ⟨e, he, _, he2⟩ := hmem
    exact absurd he2 (untilRun_no_exit env cfg d e he c)


theorem mem_actionsOf (w : Who) (e : Event) (t : List (Who × Event)) (h : (w, e) ∈ t) :
    e ∈ actionsOf w t := by
  simp only [actionsOf, List.mem_map, List.mem_filter]
  exact ⟨(w, e), ⟨h, by simp⟩, rfl⟩

theorem runInv_calls (res : Nat → Option Error) (hs : List Handle) (s : Sys)
    (h : runInv res hs s) : calls (actionsOf .listener s.trace) <+: hs := by
  obtain ⟨_, _, hp, _⟩ := h
  unfold passShape at hp
  split at hp
  · exact absurd hp id
  · rw [hp]; exact List.nil_prefix
  · rw [hp]; exact List.nil_prefix
  · obtain ⟨sig, hsig⟩ := hp
    rw [hsig]
    simp [calls, List.nil_prefix]
  · next todo _ =>
    obtain ⟨sig, hsig⟩ := hp
    have := calls_onSignal res sig hs
    rw [← hsig, calls_append] at this
    exact ⟨calls todo, this⟩

theorem append_eq_snoc_nil {α : Type} (l todo x : List α) (a : α)
    (h : l ++ todo = x ++ [a]) (hl : a ∈ l) (hx : a ∉ x) : todo = [] := by
  rcases List.eq_nil_or_concat todo with h0 | ⟨t, b, h0⟩
  · exact h0
  · subst h0
    rw [List.concat_eq_append, ← List.append_assoc] at h
    have := (List.append_inj' h rfl).1
    exact absurd (this ▸ List.mem_append_left t hl) hx

theorem runInv_exit (res : Nat → Option Error) (hs : List Handle) (s : Sys)
    (h : runInv res hs s) (hmem : (Who.listener, Event.exit 1) ∈ s.trace) :
    s.exited = some (.status 1) ∧ calls (actionsOf .listener s.trace) = hs := by
  obtain ⟨_, _, hp, hx⟩ := h
  refine ⟨hx _ _ hmem, ?_⟩
  have hin := mem_actionsOf _ _ _ hmem
  unfold passShape at hp
  split at hp
  · exact absurd hp id
  · rw [hp] at hin; simp at hin
  · rw [hp] at hin; simp at hin
  · obtain ⟨sig, hsig⟩ := hp
    rw [hsig] at hin
    simp at hin
  · next todo _ =>
    obtain ⟨sig, hsig⟩ := hp
    have hnot : Event.exit 1 ∉
        [Event.log .warn ("received signal: " ++ sig.String)] ++ handleLoop res 0 hs := by
      intro hc
      rw [List.mem_append] at hc
      rcases hc with hc | hc
      · simp at hc
      · exact (handleLoop_mem res hs 0 _ hc).2.2 1 rfl
    have htodo : todo = [] := append_eq_snoc_nil _ _ _ _ hsig hin hnot
    rw [htodo, List.append_nil] at hsig
    rw [hsig]
    exact calls_onSignal res sig hs


/-! ## From the call of `d.Run()` on: the main goroutine stays in `d.Run()` -/

theorem exec_append (res : Nat → Option Error) (s : Sys) (a b : List Tick) :
    exec res s (a ++ b) = exec res (exec res s a) b := by
  simp [exec, List.foldl_append]

theorem exec_exited (res : Nat → Option Error) (sched : List Tick) :
    ∀ s : Sys, s.exited.isSome = true → exec res s sched = s := by
  induction sched with
  | nil => intro s _; rfl
  | cons t ts ih =>
    intro s h
    have hstep : step res s t = s := by simp [step, h]
    rw [exec_cons, hstep]
    exact ih s h

theorem perform_set_chan (s : Sys) (w : Who) (e : Event) (c : Option Signal) :
    { Sys.perform s w e with chan := c } = Sys.perform { s with chan := c } w e := by
  cases e <;> rfl

theorem perform_notify (s : Sys) (w : Who) (e : Event) (h : s.notify = true) :
    (Sys.perform s w e).notify = true := by
  cases e <;> first | exact h | rfl

theorem step_listener_chan (res : Nat → Option Error) (s : Sys) (c : Option Signal)
    (h : s.lis ≠ .waiting) :
    step res { s with chan := c } .listener = { step res s .listener with chan := c } := by
  obtain ⟨m, l, sh, n, ch, tr, ex⟩ := s
  unfold step
  simp only
  split
  · rfl
  · cases l with
    | absent => rfl
    | waiting => exact absurd rfl h
    | received sig => simp only [perform_set_chan]
    | ranging => rfl
    | running todo =>
      cases todo with
      | nil => rfl
      | cons e todo => simp only [perform_set_chan]

theorem step_listener_passing (res : Nat → Option Error) (s : Sys) (h : passing s) :
    passing (step res s .listener) := by
  obtain ⟨hw, hg, hn⟩ := h
  unfold step
  split
  · exact ⟨hw, hg, hn⟩
  · simp only
    split
    · exact ⟨hw, hg, hn⟩
    · next hl => exact absurd hl hw
    · next sig hl =>
      refine ⟨?_, ?_, perform_notify _ _ _ hn⟩
      · rw [perform_lis]; simp
      · intro td htd
        rw [perform_lis] at htd
        simp at htd
    · next hl =>
      refine ⟨by simp, ?_, hn⟩
      intro td htd
      simp only [Lis.running.injEq] at htd
      subst htd
      simp [handleLoop_no_go]
    · exact ⟨hw, hg, hn⟩
    · next e todo hl =>
      have hno : Event.go ∉ e :: todo := hg _ hl
      have hgo : e ≠ .go := fun h => hno (h ▸ List.mem_cons_self _ _)
      refine ⟨?_, ?_, perform_notify _ _ _ hn⟩
      · rw [perform_lis]; simp [hgo]
      · intro td htd
        rw [perform_lis] at htd
        simp only [hgo, if_false, Lis.running.injEq] at htd
        subst htd
        exact fun h => hno (List.mem_cons_of_mem _ h)

theorem exec_listener_chan (res : Nat → Option Error) (c : Option Signal) (n : Nat) :
    ∀ s : Sys, passing s →
      exec res { s with chan := c } (List.replicate n .listener)
        = { exec res s (List.replicate n .listener) with chan := c } := by
  induction n with
  | zero => intro s _; rfl
  | succ n ih =>
    intro s h
    simp only [List.replicate_succ, exec_cons]
    rw [step_listener_chan res s c h.1]
    exact ih _ (step_listener_passing res s h)

theorem step_signal_chan (res : Nat → Option Error) (s : Sys) (sig : Signal)
    (hn : s.notify = true) : ∃ c, step res s (.signal sig) = { s with chan := c } := by
  obtain ⟨m, l, sh, n, ch, tr, ex⟩ := s
  simp only at hn
  subst hn
  unfold step
  split
  · exact ⟨ch, rfl⟩
  · cases ch with
    | none => exact ⟨some sig, rfl⟩
    | some c0 => exact ⟨some c0, rfl⟩

theorem exec_no_main (res : Nat → Option Error) (sched : List Tick)
    (hs : ∀ t ∈ sched, t ≠ .main) :
    ∀ s : Sys, passing s →
      ∃ c, exec res s sched
        = { exec res s (List.replicate (sched.count .listener) .listener) with chan := c } := by
  induction sched with
  | nil => intro s _; exact ⟨s.chan, rfl⟩
  | cons t ts ih =>
    intro s h
    have hts : ∀ t ∈ ts, t ≠ .main := fun t ht => hs t (List.mem_cons_of_mem _ ht)
    cases t with
    | main => exact absurd rfl (hs _ (List.mem_cons_self _ _))
    | listener =>
      obtain ⟨c, hc⟩ := ih hts _ (step_listener_passing res s h)
      refine ⟨c, ?_⟩
      rw [exec_cons, hc]
      simp [List.replicate_succ, exec_cons]
    | signal sig =>
      obtain ⟨c1, hc1⟩ := step_signal_chan res s sig h.2.2
      obtain ⟨c, hc⟩ := ih hts { s with chan := c1 } h
      refine ⟨c, ?_⟩
      rw [exec_cons, hc1, hc, exec_listener_chan res c1 _ s h]
      simp [List.count_cons]


theorem exec_atRun_waiting (res : Nat → Option Error) (env : Env) (cfg : Config) (d : Daemon)
    (pre : List Tick) (hpre : ∀ t ∈ pre, t = .listener) :
    exec res (Sys.atRun env cfg d) pre = Sys.atRun env cfg d := by
  induction pre with
  | nil => rfl
  | cons t ts ih =>
    rw [hpre t (List.mem_cons_self _ _), exec_cons]
    have hstep : step res (Sys.atRun env cfg d) .listener = Sys.atRun env cfg d := rfl
    rw [hstep]
    exact ih (fun t ht => hpre t (List.mem_cons_of_mem _ ht))

theorem exec_received (res : Nat → Option Error) (sig : Signal) (env : Env) (cfg : Config)
    (d : Daemon) (n : Nat) (hn : 7 ≤ n) :
    (exec res { Sys.atRun env cfg d with lis := .received sig }
        (List.replicate n .listener)).exited = some (.status 1)
      ∧ (exec res { Sys.atRun env cfg d with lis := .received sig }
          (List.replicate n .listener)).trace
        = (Sys.atRun env cfg d).trace ++
            (onSignal res sig [.stopAll (processes env cfg), .shutdown d]).map
              (fun e => (Who.listener, e)) := by
  obtain ⟨k, rfl⟩ : ∃ k, n = 7 + k := ⟨n - 7, by omega⟩
  have h7 : (exec res { Sys.atRun env cfg d with lis := .received sig }
        (List.replicate 7 .listener)).exited = some (.status 1)
      ∧ (exec res { Sys.atRun env cfg d with lis := .received sig }
          (List.replicate 7 .listener)).trace
        = (Sys.atRun env cfg d).trace ++
            (onSignal res sig [.stopAll (processes env cfg), .shutdown d]).map
              (fun e => (Who.listener, e)) := by
    constructor
    · cases h0 : res 0 <;> cases h1 : res 1 <;>
        simp [exec, step, Sys.perform, Sys.atRun, handleLoop, Handle.event, List.replicate,
          h0, h1]
    · cases h0 : res 0 <;> cases h1 : res 1 <;>
        simp [exec, step, Sys.perform, Sys.atRun, handleLoop, Handle.event, List.replicate,
          h0, h1, onSignal]
  rw [List.replicate_add, exec_append, exec_exited res _ _ (by rw [h7.1]; rfl)]
  exact h7

theorem exec_signalled (res : Nat → Option Error) (sig : Signal) (env : Env) (cfg : Config)
    (d : Daemon) (post : List Tick) (hpost : ∀ t ∈ post, t ≠ .main) :
    (post.count .listener = 0
        ∧ exec res { Sys.atRun env cfg d with chan := some sig } post
          = { Sys.atRun env cfg d with chan := some sig })
      ∨ ∃ c, exec res { Sys.atRun env cfg d with chan := some sig } post
          = { exec res { Sys.atRun env cfg d with lis := .received sig }
                (List.replicate (post.count .listener - 1) .listener) with chan := c } := by
  induction post with
  | nil => exact Or.inl ⟨rfl, rfl⟩
  | cons t ts ih =>
    have hts : ∀ t ∈ ts, t ≠ .main := fun t ht => hpost t (List.mem_cons_of_mem _ ht)
    cases t with
    | main => exact absurd rfl (hpost _ (List.mem_cons_self _ _))
    | signal sig1 =>
      have hstep : step res { Sys.atRun env cfg d with chan := some sig } (.signal sig1)
          = { Sys.atRun env cfg d with chan := some sig } := rfl
      rw [exec_cons, hstep]
      simpa [List.count_cons] using ih hts
    | listener =>
      right
      have hstep : step res { Sys.atRun env cfg d with chan := some sig } .listener
          = { Sys.atRun env cfg d with lis := .received sig } := rfl
      have hp : passing { Sys.atRun env cfg d with lis := .received sig } := by
        refine ⟨by simp, ?_, rfl⟩
        intro td htd
        simp at htd
      obtain ⟨c, hc⟩ := exec_no_main res ts hts _ hp
      refine ⟨c, ?_⟩
      rw [exec_cons, hstep, hc]
      simp [List.count_cons]

/-- The pass runs to its end when the main goroutine stays in `d.Run()`. -/
theorem exec_atRun_blocked (res : Nat → Option Error) (sig : Signal) (env : Env) (cfg : Config)
    (d : Daemon) (pre post : List Tick) (hpre : ∀ t ∈ pre, t = .listener)
    (hpost : ∀ t ∈ post, t ≠ .main) (hn : 8 ≤ post.count .listener) :
    (exec res (Sys.atRun env cfg d) (pre ++ .signal sig :: post)).exited = some (.status 1)
      ∧ (exec res (Sys.atRun env cfg d) (pre ++ .signal sig :: post)).trace
        = (Sys.atRun env cfg d).trace ++
            (onSignal res sig [.stopAll (processes env cfg), .shutdown d]).map
              (fun e => (Who.listener, e)) := by
  have hsig : step res (Sys.atRun env cfg d) (.signal sig)
      = { Sys.atRun env cfg d with chan := some sig } := rfl
  rw [exec_append, exec_atRun_waiting res env cfg d pre hpre, exec_cons, hsig]
  rcases exec_signalled res sig env cfg d post hpost with ⟨h0, _⟩ | ⟨c, hc⟩
  · omega
  · rw [hc]
    exact exec_received res sig env cfg d _ (by omega)

/-- C3, as stated, fails: the sample run reaches `d.Run()` with
`sigHandles = [StopAll, Shutdown]` and a SIGTERM arrives there.  In the first
schedule `d.Run()` returns before the signal goroutine has called a handler, and
the process ends with status 0 and no handler called.  In the second the signal
goroutine calls `StopAll` and `Shutdown`, and the main goroutine leaves `main`
before `os.Exit(1)`: the process ends with status 0. -/
theorem signal_at_run_exit_zero :
    exec (fun _ => none) (Sys.init envOk cfgDefault) (List.replicate 10 .main)
        = Sys.atRun envOk cfgDefault ⟨1⟩
      ∧ (exec (fun _ => none) (Sys.atRun envOk cfgDefault ⟨1⟩) schedMainFirst).exited
          = some (.status 0)
      ∧ calls (actionsOf .listener
          (exec (fun _ => none) (Sys.atRun envOk cfgDefault ⟨1⟩) schedMainFirst).trace) = []
      ∧ (exec (fun _ => none) (Sys.atRun envOk cfgDefault ⟨1⟩) schedExitZero).exited
          = some (.status 0)
      ∧ calls (actionsOf .listener
          (exec (fun _ => none) (Sys.atRun envOk cfgDefault ⟨1⟩) schedExitZero).trace)
          = [.stopAll (processes envOk cfgDefault), .shutdown ⟨1⟩] := by
  decide

/-- C3, amended: in a run that gets past the home directory, whose `RunAll`
succeeds and whose daemon `d` is constructed, the process at the call of
`d.Run()` has `sigHandles = [processes.StopAll, d.Shutdown]`.  When a signal
arrives there and the main goroutine stays in `d.Run()`, then under every
schedule of further signals and of steps of the signal goroutine that gives it
its eight steps, the goroutine logs the signal, calls `processes.StopAll`, then
`d.Shutdown`, and ends the process with status 1, whatever the two calls return.
Under every schedule whatsoever, the handlers the goroutine has called are an
initial segment of `[processes.StopAll, d.Shutdown]`, and if its `os.Exit(1)`
has been performed then both were called and the process ended with status 1. -/
theorem signal_at_run (res : Nat → Option Error) (sig : Signal) (env : Env) (cfg : Config)
    (d : Daemon) (hh : homeReady env cfg) (hr : env.runAll = none)
    (hd : env.newDaemon = some d) :
    (runDaemon env cfg []).trace =
        untilRun env cfg d ++ [.runReturned d, .stopAll (processes env cfg)]
      ∧ (runDaemon env cfg []).sigHandles = [.stopAll (processes env cfg), .shutdown d]
      ∧ exec res (Sys.init env cfg) (List.replicate (untilRun env cfg d).length .main)
          = Sys.atRun env cfg d
      ∧ (∀ pre post : List Tick, (∀ t ∈ pre, t = .listener) → (∀ t ∈ post, t ≠ .main) →
          8 ≤ post.count .listener →
          (exec res (Sys.atRun env cfg d) (pre ++ .signal sig :: post)).exited
              = some (.status 1)
            ∧ (exec res (Sys.atRun env cfg d) (pre ++ .signal sig :: post)).trace
              = (Sys.atRun env cfg d).trace ++
                  (onSignal res sig [.stopAll (processes env cfg), .shutdown d]).map
                    (fun e => (Who.listener, e)))
      ∧ (∀ sched : List Tick,
          calls (actionsOf .listener (exec res (Sys.atRun env cfg d) sched).trace)
              <+: [.stopAll (processes env cfg), .shutdown d]
            ∧ ((Who.listener, Event.exit 1) ∈ (exec res (Sys.atRun env cfg d) sched).trace →
                (exec res (Sys.atRun env cfg d) sched).exited = some (.status 1)
                  ∧ calls (actionsOf .listener (exec res (Sys.atRun env cfg d) sched).trace)
                    = [.stopAll (processes env cfg), .shutdown d]))
      ∧ calls (onSignal res sig [.stopAll (processes env cfg), .shutdown d])
          = [.stopAll (processes env cfg), .shutdown d] := by
  refine ⟨?_, ?_, exec_untilRun res env cfg d hh hr hd, ?_, ?_, calls_onSignal res sig _⟩
  · rw [runDaemon_of_homeReady env cfg [] hh]
    simp [Result.after, startProcesses, deferStopAll, runDaemonBody, hr, hd, untilRun]
  · rw [runDaemon_of_homeReady env cfg [] hh]
    simp [Result.after, startProcesses, deferStopAll, runDaemonBody, hr, hd]
  · intro pre post hpre hpost hn
    exact exec_atRun_blocked res sig env cfg d pre post hpre hpost hn
  · intro sched
    have hinv := exec_runInv res _ sched _ (atRun_runInv res env cfg d)
    exact ⟨runInv_calls res _ _ hinv, runInv_exit res _ _ hinv⟩

/-- Witness of the amended C3: SIGTERM at `d.Run()` in the default
configuration, with both handlers failing and a second signal during the
pass. -/
theorem signal_at_run_witness :
    (homeReady envOk cfgDefault ∧ envOk.runAll = none ∧ envOk.newDaemon = some ⟨1⟩)
      ∧ (exec (fun _ => some ⟨"timeout", false⟩) (Sys.atRun envOk cfgDefault ⟨1⟩)
          ([.listener] ++ .signal .SIGTERM ::
            ([.listener, .listener, .signal .SIGINT] ++ List.replicate 6 .listener))).exited
          = some (.status 1) := by
  have hh : homeReady envOk cfgDefault := by decide
  have hpre : ∀ t ∈ [Tick.listener], t = .listener := by decide
  have hpost : ∀ t ∈ [Tick.listener, Tick.listener, Tick.signal .SIGINT]
      ++ List.replicate 6 Tick.listener, t ≠ Tick.main := by decide
  have hn : 8 ≤ ([Tick.listener, Tick.listener, Tick.signal .SIGINT]
      ++ List.replicate 6 Tick.listener).count Tick.listener := by decide
  exact ⟨⟨hh, rfl, rfl⟩,
    ((signal_at_run (fun _ => some ⟨"timeout", false⟩) .SIGTERM envOk cfgDefault ⟨1⟩
      hh rfl rfl).2.2.2.1 _ _ hpre hpost hn).1⟩

end Pouchd
